import Mathlib

/-!
# Motion / sound monitor sketch (`src/main.cpp`)

A shallow embedding of the Arduino sketch: the process-wide globals become the fields of
`State`, every hardware read (`digitalRead`, `millis`) becomes an argument of the function
that performs it, and every operation sent to the character display is appended to a trace
(`State.lcdOps`).  What the display shows is obtained by replaying that trace on a model of
the 16 x 2 character module (`Lcd`).  A `String` of the model is an Arduino `String`, one
`Char` per `char`.
-/

namespace Sketch

/-! ## Hardware constants -/

/-- Modelled from the spec: the macro `HIGH` of `Arduino.h`, which is not part of the
repository; the high level of a binary pin, 0x1 on every Arduino core. -/
def HIGH : Int := 1

/-- Modelled from the spec: the macro `LOW` of `Arduino.h`, which is not part of the
repository; the low level of a binary pin, 0x0 on every Arduino core. -/
def LOW : Int := 0

/-- Number of values of `unsigned long`, which has 32 bits on the boards the sketch names
(ESP32 pin numbers, Arduino Uno): `millis()` and `soundDetectedTime` live in `[0, 2^32)`. -/
def ULONG_RANGE : Nat := 2 ^ 32

/-- Unsigned 32-bit subtraction `a - b` as C evaluates it on `unsigned long`. -/
def ulongSub (a b : Nat) : Nat := (a + (ULONG_RANGE - b % ULONG_RANGE)) % ULONG_RANGE

/-- Columns of the display, from `LiquidCrystal_I2C lcd(0x27, 16, 2)`. -/
def lcdCols : Nat := 16

/-- Modelled from the spec: the display device is not part of the repository.  Cells of
display memory behind each of the two lines of the module's controller (HD44780 in two-line
mode); only the first `lcdCols` of them are in the visible window. -/
def lcdLineCells : Nat := 40

/-! ## The character display -/

/-- An operation the sketch sends to the display object `lcd`: the member functions of
`LiquidCrystal_I2C` that `setup` and `updateLCD` call. -/
inductive LcdOp where
  | begin (cols rows : Nat)
  | setBacklight (lit : Bool)
  | clear
  | setCursor (col row : Nat)
  | print (text : String)
deriving DecidableEq

/-- Modelled from the spec: the display device (the `LiquidCrystal_I2C` library and the
module it drives are not part of the repository), a character display of 16 columns and 2
rows with clear, set-cursor and write-text operations.  Its content is the memory cells of
the two lines and the cursor. -/
structure Lcd where
  line0 : List Char
  line1 : List Char
  row : Nat
  col : Nat
deriving DecidableEq

/-- Modelled from the spec: a cleared display, every cell blank and the cursor at row 0,
column 0. -/
def Lcd.blank : Lcd :=
  { line0 := List.replicate lcdLineCells ' ', line1 := List.replicate lcdLineCells ' ',
    row := 0, col := 0 }

/-- Modelled from the spec: writing one character to the display.  It is stored in the cell
under the cursor and the cursor moves one cell to the right; past the last memory cell of a
line it continues on the other line. -/
def Lcd.write (d : Lcd) (c : Char) : Lcd :=
  let d1 : Lcd :=
    if d.row = 0 then { d with line0 := d.line0.set d.col c }
    else { d with line1 := d.line1.set d.col c }
  if d.col + 1 < lcdLineCells then { d1 with col := d.col + 1 }
  else { d1 with row := (if d.row = 0 then 1 else 0), col := 0 }

/-- Modelled from the spec: effect of one operation on the display.  `begin` and `clear` blank
it, `setCursor(col, row)` places the cursor, `print` writes the characters of the text one
after the other. -/
def Lcd.step (d : Lcd) : LcdOp → Lcd
  | .begin _ _ => Lcd.blank
  | .setBacklight _ => d
  | .clear => Lcd.blank
  | .setCursor col row => { d with row := row, col := col }
  | .print text => text.toList.foldl Lcd.write d

/-- Modelled from the spec: the display after a trace of operations, starting from a blank
module. -/
def Lcd.run (ops : List LcdOp) : Lcd := ops.foldl Lcd.step Lcd.blank

/-- Modelled from the spec: the `lcdCols` cells of row `r` that are in the visible window. -/
def Lcd.visibleRow (d : Lcd) (r : Nat) : List Char :=
  (if r = 0 then d.line0 else d.line1).take lcdCols

/-- The cells a row has to show for `text` to be readable on it: the characters of `text`
from column 0, then blanks up to the last column. -/
def rowImage (text : String) : List Char :=
  text.toList ++ List.replicate (lcdCols - text.length) ' '

/-- Row `r` of the display shows exactly `text`. -/
def Lcd.shows (d : Lcd) (r : Nat) (text : String) : Prop :=
  d.visibleRow r = rowImage text

instance (d : Lcd) (r : Nat) (text : String) : Decidable (d.shows r text) := by
  unfold Lcd.shows; infer_instance

/-! ## Program state -/

/-- The globals of the sketch together with the observable outputs. -/
structure State where
  /-- Global `soundDetected`. -/
  soundDetected : Bool
  /-- Global `movementDetected`. -/
  movementDetected : Bool
  /-- Global `soundDetectedTime` (an `unsigned long`). -/
  soundDetectedTime : Nat
  /-- Global `lastLcdMessage`. -/
  lastLcdMessage : String
  /-- Every operation sent to `lcd` so far, oldest first. -/
  lcdOps : List LcdOp
  /-- Level last driven on `ledPin`. -/
  ledLevel : Int
  /-- Lines printed on `Serial`. -/
  serialOut : List String
deriving DecidableEq

/-- The globals as initialised at lines 13-16, with nothing output yet. -/
def initState : State :=
  { soundDetected := false, movementDetected := false, soundDetectedTime := 0,
    lastLcdMessage := "", lcdOps := [], ledLevel := LOW, serialOut := [] }

/-- What the display shows in a state. -/
def State.display (st : State) : Lcd := Lcd.run st.lcdOps

/-! ## `updateLCD` -/

/-- The combined text `motionState + "\n" + soundState` of line 26. -/
def lcdMessage (motionState soundState : String) : String :=
  motionState ++ "\n" ++ soundState

/-- The clear-and-write sequence of lines 28-32. -/
def writeSeq (motionState soundState : String) : List LcdOp :=
  [.clear, .setCursor 0 0, .print motionState, .setCursor 0 1, .print soundState]

/-- Function `updateLCD` (lines 24-35). -/
def updateLCD (st : State) (motionState soundState : String) : State :=
  let newLcdMessage := lcdMessage motionState soundState
  if newLcdMessage ≠ st.lastLcdMessage then
    { st with
      lcdOps := st.lcdOps ++ writeSeq motionState soundState
      lastLcdMessage := newLcdMessage }
  else st

/-! ## Sensor readers -/

/-- Function `readPirSensor` (lines 38-49); `currentPirState` is the value `digitalRead(pirPin)`
returns in this call. -/
def readPirSensor (st : State) (currentPirState : Int) : Bool × State :=
  let st1 : State :=
    if currentPirState = HIGH then { st with movementDetected := true }
    else if currentPirState = LOW then { st with movementDetected := false }
    else st
  (st1.movementDetected, st1)

/-- Function `readMicSensor` (lines 53-67); `micState` is the value `digitalRead(micPin)`
returns and `now` the value `millis()` returns in this call. -/
def readMicSensor (st : State) (micState : Int) (now : Nat) : Bool × State :=
  let st1 : State :=
    if micState = HIGH then { st with soundDetected := true, soundDetectedTime := now }
    else if st.soundDetected = true ∧ ulongSub now st.soundDetectedTime > 5000 then
      { st with soundDetected := false }
    else st
  (st1.soundDetected, st1)

/-! ## `setup` and `loop` -/

/-- Function `setup` (lines 70-91).  `Serial.begin`, `Wire.begin`, `pinMode` and `delay` change
none of the modelled state. -/
def setup (st : State) : State :=
  let st1 : State :=
    { st with lcdOps := st.lcdOps ++ [.begin 16 2, .setBacklight true, .clear] }
  let st2 := updateLCD st1 "System Initialized" "No Sound"
  { st2 with serialOut := st2.serialOut ++ ["System Initialized"] }

/-- The readings one execution of `loop` takes from the hardware. -/
structure Inputs where
  /-- Value of `digitalRead(pirPin)`. -/
  pir : Int
  /-- Value of `digitalRead(micPin)`. -/
  mic : Int
  /-- Value of `millis()`. -/
  now : Nat
deriving DecidableEq

/-- Text of row 0 chosen at line 103. -/
def motionText (motionDetected : Bool) : String :=
  if motionDetected then "Motion Detected!" else "No Motion"

/-- Text of row 1 chosen at line 111. -/
def soundText (soundDetected : Bool) : String :=
  if soundDetected then "Sound Detected!" else "No Sound"

/-- Function `loop` (lines 94-115): one poll cycle. -/
def loop (st : State) (inp : Inputs) : State :=
  let (motionDetected, st1) := readPirSensor st inp.pir
  let (soundDetected, st2) := readMicSensor st1 inp.mic inp.now
  let motionState := motionText motionDetected
  let st3 : State := { st2 with ledLevel := if motionDetected then HIGH else LOW }
  let soundState := soundText soundDetected
  updateLCD st3 motionState soundState

/-! ## Runs -/

/-- A sequence of `readMicSensor` calls, one per poll `(level, clock reading)`; returns the
value of each call and the final state. -/
def runMic (st : State) : List (Int × Nat) → List Bool × State
  | [] => ([], st)
  | (lvl, now) :: rest =>
    let r := readMicSensor st lvl now
    let rs := runMic r.2 rest
    (r.1 :: rs.1, rs.2)

/-- A sequence of `readPirSensor` calls, one per pin reading; returns the value of each call
and the final state. -/
def runPir (st : State) : List Int → List Bool × State
  | [] => ([], st)
  | lvl :: rest =>
    let r := readPirSensor st lvl
    let rs := runPir r.2 rest
    (r.1 :: rs.1, rs.2)

/-- A sequence of `updateLCD` calls, one per pair `(motionState, soundState)`. -/
def runLCD (st : State) (calls : List (String × String)) : State :=
  calls.foldl (fun acc c => updateLCD acc c.1 c.2) st

/-- A sequence of poll cycles. -/
def runLoop (st : State) (inps : List Inputs) : State :=
  inps.foldl loop st

/-- The value `readPirSensor` returns in the poll cycle run in state `st` on inputs `inp`. -/
def pollMotion (st : State) (inp : Inputs) : Bool :=
  (readPirSensor st inp.pir).1

/-- The value `readMicSensor` returns in the poll cycle run in state `st` on inputs `inp`. -/
def pollSound (st : State) (inp : Inputs) : Bool :=
  (readMicSensor (readPirSensor st inp.pir).2 inp.mic inp.now).1

/-- The call `updateLCD(m, s)` made in state `st` issues the clear-and-write sequence. -/
def issuesWrite (st : State) (m s : String) : Prop :=
  (updateLCD st m s).lcdOps = st.lcdOps ++ writeSeq m s

/-- The call `updateLCD(m, s)` made in state `st` sends nothing to the display. -/
def issuesNothing (st : State) (m s : String) : Prop :=
  (updateLCD st m s).lcdOps = st.lcdOps

/-- The cache is empty, or it holds the combined text of the clear-and-write sequence that
was sent to the display last. -/
def Coherent (st : State) : Prop :=
  st.lastLcdMessage = "" ∨
    ∃ ops m s, st.lcdOps = ops ++ writeSeq m s ∧ st.lastLcdMessage = lcdMessage m s

/-- The texts of the `print` operations of a trace, oldest first. -/
def printedTexts (ops : List LcdOp) : List String :=
  ops.filterMap (fun op => match op with
    | .print text => some text
    | _ => none)

/-- The clock reading of the most recent poll of a sequence at which the sound input read
`HIGH`, if there is one. -/
def lastHighTime (polls : List (Int × Nat)) : Option Nat :=
  ((polls.filter (fun p => decide (p.1 = HIGH))).getLast?).map Prod.snd

/-- The closed form of the sound latch, in the words of the claim: after the polls `polls`,
the last of which is the current one with clock reading `now`, the value is true exactly when
the input read high at this or some earlier poll and `now` is at most 5000 after the reading
of the most recent high. -/
def latchClosedForm (polls : List (Int × Nat)) (now : Nat) : Bool :=
  match lastHighTime polls with
  | none => false
  | some t => decide (now ≤ t + 5000)

/-- The state of the latch after the polls `polls`: it is clear when no poll read high;
otherwise, with `t` the reading of the most recent high, either it is set with timestamp `t`
and no poll is later than `t + 5000`, or it is clear and some poll is later than
`t + 5000`. -/
def LatchInv (st : State) (polls : List (Int × Nat)) : Prop :=
  match lastHighTime polls with
  | none => st.soundDetected = false
  | some t =>
    (st.soundDetected = true ∧ st.soundDetectedTime = t ∧
        ∀ u ∈ polls.map Prod.snd, u ≤ t + 5000) ∨
      (st.soundDetected = false ∧ ∃ u ∈ polls.map Prod.snd, t + 5000 < u)

/-! ## Clock arithmetic -/

theorem ulongSub_of_le {a b : Nat} (hba : b ≤ a) (ha : a < ULONG_RANGE) :
    ulongSub a b = a - b := by
  unfold ulongSub ULONG_RANGE at *
  have hb : b % 2 ^ 32 = b := Nat.mod_eq_of_lt (by omega)
  rw [hb]
  norm_num at *
  omega

/-! ## The sound latch -/

theorem readMicSensor_high (st : State) (now : Nat) :
    readMicSensor st HIGH now
      = (true, { st with soundDetected := true, soundDetectedTime := now }) := by
  simp [readMicSensor]

theorem readMicSensor_low (st : State) (lvl : Int) (now : Nat) (hlow : lvl ≠ HIGH) :
    readMicSensor st lvl now
      = if st.soundDetected = true ∧ ulongSub now st.soundDetectedTime > 5000
        then (false, { st with soundDetected := false }) else (st.soundDetected, st) := by
  unfold readMicSensor
  simp only [hlow, if_false]
  split <;> rfl

/-- Low polls after a detection at `T`: while the latch is set with timestamp `T`, or once it
has been cleared after the deadline, each poll returns whether its reading is within
`T + 5000`. -/
theorem runMic_low_after (T : Nat) :
    ∀ (later : List Nat) (st : State) (prev : Nat),
      T ≤ prev → List.Chain (fun a b => a ≤ b) prev later →
      (∀ t ∈ later, t < ULONG_RANGE) →
      ((st.soundDetected = true ∧ st.soundDetectedTime = T) ∨
        (st.soundDetected = false ∧ T + 5000 < prev)) →
      (runMic st (later.map (fun t => (LOW, t)))).1
        = later.map (fun t => decide (t ≤ T + 5000)) := by
  intro later
  induction later with
  | nil => intro st prev _ _ _ _; rfl
  | cons now rest ih =>
    intro st prev hprev hchain hrange hinv
    rw [List.chain_cons] at hchain
    obtain ⟨hle, hrest⟩ := hchain
    have hnow : now < ULONG_RANGE := hrange now (List.mem_cons_self _ _)
    have hrange2 : ∀ t ∈ rest, t < ULONG_RANGE :=
      fun t ht => hrange t (List.mem_cons_of_mem _ ht)
    have hTnow : T ≤ now := le_trans hprev hle
    have hlow : LOW ≠ HIGH := by decide
    simp only [List.map_cons, runMic]
    rw [readMicSensor_low st LOW now hlow]
    rcases hinv with ⟨hd, ht⟩ | ⟨hd, hlate⟩
    · rw [hd, ht, ulongSub_of_le hTnow hnow]
      by_cases hwin : now ≤ T + 5000
      · have hnot : ¬ (true = true ∧ now - T > 5000) := by omega
        rw [if_neg hnot]
        simp only [hd, hwin, decide_True]
        rw [ih st now hTnow hrest hrange2 (Or.inl ⟨hd, ht⟩)]
      · have hyes : (true = true ∧ now - T > 5000) := ⟨rfl, by omega⟩
        rw [if_pos hyes]
        simp only [hwin, decide_False]
        rw [ih _ now hTnow hrest hrange2 (Or.inr ⟨rfl, by omega⟩)]
    · have hnot : ¬ (st.soundDetected = true ∧ ulongSub now st.soundDetectedTime > 5000) := by
        simp [hd]
      rw [if_neg hnot]
      have hwin : ¬ now ≤ T + 5000 := by omega
      simp only [hd, hwin, decide_False]
      rw [ih st now hTnow hrest hrange2 (Or.inr ⟨hd, by omega⟩)]

theorem runMic_append (st : State) (a b : List (Int × Nat)) :
    (runMic st (a ++ b)).1 = (runMic st a).1 ++ (runMic (runMic st a).2 b).1 := by
  induction a generalizing st with
  | nil => rfl
  | cons p rest ih =>
    obtain ⟨lvl, now⟩ := p
    show (runMic st ((lvl, now) :: (rest ++ b))).1 = _
    simp only [runMic, ih, List.cons_append]

/-- Polls inside the decay window: with the latch set at a timestamp between `T` and the
previous reading, and every reading at most `B <= T + 5000`, each poll returns true whatever
the input level is. -/
theorem runMic_held (T B : Nat) (hB : B ≤ T + 5000) (hBR : B < ULONG_RANGE) :
    ∀ (mid : List (Int × Nat)) (st : State) (prev : Nat),
      List.Pairwise (fun a b => a ≤ b) (mid.map Prod.snd) →
      (∀ t ∈ mid.map Prod.snd, prev ≤ t ∧ t ≤ B) →
      st.soundDetected = true → T ≤ st.soundDetectedTime → st.soundDetectedTime ≤ prev →
      (runMic st mid).1 = mid.map (fun _ => true) := by
  intro mid
  induction mid with
  | nil => intro st prev _ _ _ _ _; rfl
  | cons p rest ih =>
    intro st prev hsorted hbounds hd hT hprev
    obtain ⟨lvl, now⟩ := p
    simp only [List.map_cons, List.pairwise_cons] at hsorted
    obtain ⟨hfirst, hrest⟩ := hsorted
    have hnow : prev ≤ now ∧ now ≤ B := hbounds now (by simp)
    have hbounds2 : ∀ t ∈ rest.map Prod.snd, now ≤ t ∧ t ≤ B := fun t ht =>
      ⟨hfirst t ht, (hbounds t (by simp only [List.map_cons]; exact List.mem_cons_of_mem _ ht)).2⟩
    simp only [List.map_cons, runMic]
    by_cases hlvl : lvl = HIGH
    · subst hlvl
      rw [readMicSensor_high]
      rw [ih _ now hrest hbounds2 rfl (le_trans hT (le_trans hprev hnow.1)) (le_refl _)]
    · rw [readMicSensor_low st lvl now hlvl]
      have hsub : ulongSub now st.soundDetectedTime = now - st.soundDetectedTime :=
        ulongSub_of_le (le_trans hprev hnow.1) (lt_of_le_of_lt hnow.2 hBR)
      have hnot : ¬ (st.soundDetected = true ∧ ulongSub now st.soundDetectedTime > 5000) := by
        rw [hsub]; omega
      rw [if_neg hnot]
      simp only [hd]
      rw [ih st now hrest hbounds2 hd hT (le_trans hprev hnow.1)]

/-- C1. Sound goes high at the poll at time `T` and is low at every later poll, the clock
readings being non-decreasing values of `unsigned long`: the call at `T` returns true and each
later call, at reading `now >= T`, returns true exactly when `now <= T + 5000`; so it is true
on the whole of `[T, T + 5000]`, the boundary included, and false after it. -/
theorem readMicSensor_decay_window (st : State) (T : Nat) (later : List Nat)
    (hmono : List.Pairwise (fun a b => a ≤ b) (T :: later))
    (hrange : ∀ t ∈ later, t < ULONG_RANGE) :
    (runMic st ((HIGH, T) :: later.map (fun t => (LOW, t)))).1
      = true :: later.map (fun t => decide (t ≤ T + 5000)) := by
  simp only [runMic, readMicSensor_high]
  rw [runMic_low_after T later _ T (le_refl T) (List.Pairwise.chain' hmono) hrange
    (Or.inl ⟨rfl, rfl⟩)]

theorem readMicSensor_decay_window_witness :
    List.Pairwise (fun a b => a ≤ b) (0 :: [4999, 5000, 5001]) ∧
    (runMic initState ((HIGH, 0) :: [4999, 5000, 5001].map (fun t => (LOW, t)))).1
      = true :: [4999, 5000, 5001].map (fun t => decide (t ≤ 0 + 5000)) :=
  ⟨by decide, readMicSensor_decay_window initState 0 [4999, 5000, 5001] (by decide)
    (by decide)⟩

/-- C2. Sound goes high at `T`, high again at `T2` with `T <= T2 <= T + 5000`, and is low at
every poll after `T2` (the polls between `T` and `T2` read anything), the clock readings being
non-decreasing values of `unsigned long`: every call returns true exactly when its reading is
at most `T2 + 5000`, so the deadline runs from the latest high reading. -/
theorem readMicSensor_retrigger (st : State) (T T2 : Nat) (mid : List (Int × Nat))
    (later : List Nat)
    (hmono : List.Pairwise (fun a b => a ≤ b) (T :: (mid.map Prod.snd ++ T2 :: later)))
    (hwin : T2 ≤ T + 5000) (hT2 : T2 < ULONG_RANGE)
    (hrange : ∀ t ∈ later, t < ULONG_RANGE) :
    (runMic st ((HIGH, T) :: (mid ++ (HIGH, T2) :: later.map (fun t => (LOW, t))))).1
      = ((HIGH, T) :: (mid ++ (HIGH, T2) :: later.map (fun t => (LOW, t)))).map
          (fun p => decide (p.2 ≤ T2 + 5000)) := by
  rw [List.pairwise_cons, List.pairwise_append, List.pairwise_cons] at hmono
  obtain ⟨hT, hmid, ⟨hT2later, hlater⟩, hcross⟩ := hmono
  have hTT2 : T ≤ T2 := hT T2 (by simp)
  have hmidB : ∀ t ∈ mid.map Prod.snd, T ≤ t ∧ t ≤ T2 := fun t ht =>
    ⟨hT t (List.mem_append_left _ ht), hcross t ht T2 (List.mem_cons_self _ _)⟩
  have hheld := runMic_held T T2 hwin hT2 mid
    { st with soundDetected := true, soundDetectedTime := T } T hmid hmidB rfl (le_refl T)
    (le_refl T)
  have hlow := fun st2 => runMic_low_after T2 later st2 T2 (le_refl T2)
    (List.Pairwise.chain' (List.pairwise_cons.mpr ⟨hT2later, hlater⟩)) hrange
  simp only [runMic, readMicSensor_high, runMic_append, hheld]
  rw [hlow _ (Or.inl ⟨rfl, rfl⟩)]
  have hmidtrue : mid.map (fun p => decide (p.2 ≤ T2 + 5000)) = mid.map (fun _ => true) := by
    apply List.map_congr_left
    intro p hp
    have := (hmidB p.2 (List.mem_map_of_mem _ hp)).2
    simp only [decide_eq_true_eq]
    omega
  have h1 : decide (T ≤ T2 + 5000) = true := by simp only [decide_eq_true_eq]; omega
  simp only [List.map_cons, List.map_append, List.map_map, hmidtrue, h1, Function.comp_def,
    le_add_iff_nonneg_right, zero_le, decide_True]

theorem readMicSensor_retrigger_witness :
    (runMic initState ((HIGH, 0) :: ([(LOW, 1000), (HIGH, 2000), (LOW, 4000)] ++
        (HIGH, 4500) :: [5001, 9500, 9501].map (fun t => (LOW, t))))).1
      = ((HIGH, 0) :: ([(LOW, 1000), (HIGH, 2000), (LOW, 4000)] ++
        (HIGH, 4500) :: [5001, 9500, 9501].map (fun t => (LOW, t)))).map
          (fun p => decide (p.2 ≤ 4500 + 5000)) :=
  readMicSensor_retrigger initState 0 4500 [(LOW, 1000), (HIGH, 2000), (LOW, 4000)]
    [5001, 9500, 9501] (by decide) (by decide) (by decide) (by decide)

/-! ## The motion reader -/

theorem readPirSensor_binary (st : State) (lvl : Int) (hbin : lvl = HIGH ∨ lvl = LOW) :
    readPirSensor st lvl
      = (decide (lvl = HIGH), { st with movementDetected := decide (lvl = HIGH) }) := by
  rcases hbin with h | h <;> subst h <;> simp [readPirSensor, HIGH, LOW]

/-- C3. With binary readings of the motion pin, each call of `readPirSensor` returns true
exactly when the level read in that call is `HIGH`, whatever the prior state, and leaves
`movementDetected` equal to the returned value (the other globals untouched); over a sequence
of calls the returned values are the levels read, call by call. -/
theorem readPirSensor_follows_level (st : State) (levels : List Int)
    (hbin : ∀ lvl ∈ levels, lvl = HIGH ∨ lvl = LOW) :
    (runPir st levels).1 = levels.map (fun lvl => decide (lvl = HIGH)) ∧
    ∀ lvl ∈ levels, ∀ prior : State,
      ((readPirSensor prior lvl).1 = true ↔ lvl = HIGH) ∧
      (readPirSensor prior lvl).2.movementDetected = (readPirSensor prior lvl).1 ∧
      (readPirSensor prior lvl).2 = { prior with movementDetected := (readPirSensor prior lvl).1 }
      := by
  constructor
  · induction levels generalizing st with
    | nil => rfl
    | cons lvl rest ih =>
      have h1 := hbin lvl (List.mem_cons_self _ _)
      have h2 : ∀ l ∈ rest, l = HIGH ∨ l = LOW := fun l hl => hbin l (List.mem_cons_of_mem _ hl)
      simp only [runPir, List.map_cons, readPirSensor_binary st lvl h1, ih _ h2]
  · intro lvl hl prior
    rw [readPirSensor_binary prior lvl (hbin lvl hl)]
    simp

theorem readPirSensor_follows_level_witness :
    (runPir initState [HIGH, LOW, LOW, HIGH]).1
        = [HIGH, LOW, LOW, HIGH].map (fun lvl => decide (lvl = HIGH)) ∧
    ∀ lvl ∈ [HIGH, LOW, LOW, HIGH], ∀ prior : State,
      ((readPirSensor prior lvl).1 = true ↔ lvl = HIGH) ∧
      (readPirSensor prior lvl).2.movementDetected = (readPirSensor prior lvl).1 ∧
      (readPirSensor prior lvl).2 = { prior with movementDetected := (readPirSensor prior lvl).1 } :=
  readPirSensor_follows_level initState [HIGH, LOW, LOW, HIGH] (by decide)

/-- C9. When the sound input does not read `HIGH` (so in particular when it reads `LOW`),
`readMicSensor` never changes `soundDetectedTime`; if the latch is set and the unsigned
difference `now - soundDetectedTime` exceeds 5000 it clears the latch, changes nothing else
and returns false; in every other case it leaves the whole state unchanged and returns the
old latch.  The unsigned difference is the elapsed time whenever the clock has not wrapped
since the detection. -/
theorem readMicSensor_low_frame (st : State) (lvl : Int) (now : Nat) (hlow : lvl ≠ HIGH) :
    (readMicSensor st lvl now).2.soundDetectedTime = st.soundDetectedTime ∧
    ((st.soundDetected = true ∧ ulongSub now st.soundDetectedTime > 5000) →
      readMicSensor st lvl now = (false, { st with soundDetected := false })) ∧
    (¬ (st.soundDetected = true ∧ ulongSub now st.soundDetectedTime > 5000) →
      readMicSensor st lvl now = (st.soundDetected, st)) ∧
    ((readMicSensor st lvl now).2.soundDetected ≠ st.soundDetected →
      st.soundDetected = true ∧ ulongSub now st.soundDetectedTime > 5000) ∧
    (st.soundDetectedTime ≤ now → now < ULONG_RANGE →
      ulongSub now st.soundDetectedTime = now - st.soundDetectedTime) := by
  rw [readMicSensor_low st lvl now hlow]
  refine ⟨?_, ?_, ?_, ?_, ?_⟩
  · split <;> rfl
  · intro h; rw [if_pos h]
  · intro h; rw [if_neg h]
  · intro h
    by_contra hc
    rw [if_neg hc] at h
    exact h rfl
  · intro h1 h2; exact ulongSub_of_le h1 h2

theorem readMicSensor_low_frame_witness :
    LOW ≠ HIGH ∧
    readMicSensor { initState with soundDetected := true, soundDetectedTime := 100 } LOW 5101
      = (false, { initState with soundDetected := false, soundDetectedTime := 100 }) :=
  ⟨by decide,
    (readMicSensor_low_frame { initState with soundDetected := true, soundDetectedTime := 100 }
      LOW 5101 (by decide)).2.1 (by decide)⟩

/-! ## The LED -/

theorem updateLCD_changed (st : State) (m s : String)
    (h : lcdMessage m s ≠ st.lastLcdMessage) :
    updateLCD st m s
      = { st with lcdOps := st.lcdOps ++ writeSeq m s, lastLcdMessage := lcdMessage m s } := by
  unfold updateLCD
  simp only [ne_eq, h, not_false_eq_true, if_true]

theorem updateLCD_same (st : State) (m s : String)
    (h : lcdMessage m s = st.lastLcdMessage) : updateLCD st m s = st := by
  unfold updateLCD
  simp only [ne_eq, h, not_true_eq_false, if_false]

theorem updateLCD_frame (st : State) (m s : String) :
    (updateLCD st m s).ledLevel = st.ledLevel ∧
    (updateLCD st m s).soundDetected = st.soundDetected ∧
    (updateLCD st m s).movementDetected = st.movementDetected ∧
    (updateLCD st m s).soundDetectedTime = st.soundDetectedTime ∧
    (updateLCD st m s).serialOut = st.serialOut := by
  by_cases h : lcdMessage m s = st.lastLcdMessage
  · rw [updateLCD_same st m s h]; simp
  · rw [updateLCD_changed st m s h]; simp

theorem loop_ledLevel (st : State) (inp : Inputs) :
    (loop st inp).ledLevel = if (readPirSensor st inp.pir).1 = true then HIGH else LOW := by
  simp only [loop, (updateLCD_frame _ _ _).1]

/-- C7. In every state, one execution of `loop` leaves the LED pin `HIGH` if the motion pin
read `HIGH` in that cycle and `LOW` if it read `LOW`; two cycles that read the same binary
level drive the same LED level whatever their states and other inputs are. -/
theorem loop_led_follows_motion (st : State) (inp : Inputs) :
    (inp.pir = HIGH → (loop st inp).ledLevel = HIGH) ∧
    (inp.pir = LOW → (loop st inp).ledLevel = LOW) ∧
    (inp.pir = HIGH ∨ inp.pir = LOW →
      ∀ (st2 : State) (inp2 : Inputs), inp2.pir = inp.pir →
        (loop st2 inp2).ledLevel = (loop st inp).ledLevel) := by
  refine ⟨?_, ?_, ?_⟩
  · intro h
    rw [loop_ledLevel, readPirSensor_binary st _ (Or.inl h)]
    simp [h]
  · intro h
    rw [loop_ledLevel, readPirSensor_binary st _ (Or.inr h)]
    simp [h, HIGH, LOW]
  · intro h st2 inp2 heq
    rw [loop_ledLevel, loop_ledLevel, readPirSensor_binary st _ h,
      readPirSensor_binary st2 _ (heq ▸ h), heq]

theorem loop_led_follows_motion_witness :
    (loop { initState with movementDetected := true, ledLevel := HIGH }
        { pir := LOW, mic := HIGH, now := 7 }).ledLevel = LOW :=
  (loop_led_follows_motion { initState with movementDetected := true, ledLevel := HIGH }
    { pir := LOW, mic := HIGH, now := 7 }).2.1 rfl

/-! ## The display cache -/

theorem lcdMessage_ne_empty (m s : String) : lcdMessage m s ≠ "" := by
  intro h
  have hlen := congrArg String.length h
  simp only [lcdMessage, String.length_append] at hlen
  have h1 : ("\n" : String).length = 1 := rfl
  have h0 : ("" : String).length = 0 := rfl
  omega

theorem writeSeq_ne_nil (m s : String) : writeSeq m s ≠ [] := by
  simp [writeSeq]

theorem updateLCD_lastLcdMessage (st : State) (m s : String) :
    (updateLCD st m s).lastLcdMessage = lcdMessage m s := by
  by_cases h : lcdMessage m s = st.lastLcdMessage
  · rw [updateLCD_same st m s h, h]
  · rw [updateLCD_changed st m s h]

theorem issuesWrite_iff (st : State) (m s : String) :
    issuesWrite st m s ↔ lcdMessage m s ≠ st.lastLcdMessage := by
  unfold issuesWrite
  constructor
  · intro hw heq
    rw [updateLCD_same st m s heq] at hw
    exact writeSeq_ne_nil m s (List.self_eq_append_right.mp hw)
  · intro hne
    rw [updateLCD_changed st m s hne]

theorem runLCD_concat (st : State) (pre : List (String × String)) (c : String × String) :
    runLCD st (pre ++ [c]) = updateLCD (runLCD st pre) c.1 c.2 := by
  simp [runLCD, List.foldl_append]

/-- C4. In a sequence of `updateLCD` calls from the initial state, a call issues the
clear-and-write sequence if and only if it is the first call or its combined text differs
from the combined text of the call just before it; a call that does not write sends nothing
to the display and leaves `lastLcdMessage`, and the whole state, unchanged. -/
theorem updateLCD_writes_iff_changed (pre : List (String × String)) (m s : String) :
    (issuesWrite (runLCD initState pre) m s ↔
      match pre.getLast? with
      | none => True
      | some p => lcdMessage m s ≠ lcdMessage p.1 p.2) ∧
    (¬ issuesWrite (runLCD initState pre) m s ↔ issuesNothing (runLCD initState pre) m s) ∧
    (issuesNothing (runLCD initState pre) m s →
      updateLCD (runLCD initState pre) m s = runLCD initState pre) := by
  have hcache : (match pre.getLast? with
      | none => (runLCD initState pre).lastLcdMessage = ""
      | some p => (runLCD initState pre).lastLcdMessage = lcdMessage p.1 p.2) := by
    rcases List.eq_nil_or_concat pre with h | ⟨L, b, h⟩
    · subst h; rfl
    · subst h
      rw [List.concat_eq_append, List.getLast?_concat, runLCD_concat,
        updateLCD_lastLcdMessage]
  have hnothing : issuesNothing (runLCD initState pre) m s ↔
      lcdMessage m s = (runLCD initState pre).lastLcdMessage := by
    unfold issuesNothing
    constructor
    · intro hn
      by_contra hne
      rw [updateLCD_changed _ m s hne] at hn
      exact writeSeq_ne_nil m s (List.append_right_eq_self.mp hn)
    · intro heq
      rw [updateLCD_same _ m s heq]
  refine ⟨?_, ?_, ?_⟩
  · rw [issuesWrite_iff]
    cases hlast : pre.getLast? with
    | none =>
      rw [hlast] at hcache
      simp only [hcache, iff_true]
      exact lcdMessage_ne_empty m s
    | some p =>
      rw [hlast] at hcache
      simp only [hcache]
  · rw [issuesWrite_iff, hnothing, not_not]
  · intro hn
    exact updateLCD_same _ m s (hnothing.mp hn)

theorem updateLCD_writes_iff_changed_witness :
    updateLCD (runLCD initState [("No Motion", "No Sound")]) "No Motion" "No Sound"
      = runLCD initState [("No Motion", "No Sound")] :=
  (updateLCD_writes_iff_changed [("No Motion", "No Sound")] "No Motion" "No Sound").2.2
    (by unfold issuesNothing; decide)

/-- C5. For all texts and every `n >= 1`, after the first of `n` consecutive calls
`updateLCD(m, s)` every further call leaves the whole state unchanged, so `n` calls give the
state of one call and `updateLCD` is idempotent; when the text is new at the first call (as it
always is from the initial state) the `n` calls together send exactly one clear-and-write
sequence, the one of the first call. -/
theorem updateLCD_repeat (st : State) (m s : String) (n : Nat) (hn : 1 ≤ n) :
    runLCD st (List.replicate n (m, s)) = updateLCD st m s ∧
    updateLCD (runLCD st (List.replicate n (m, s))) m s = runLCD st (List.replicate n (m, s)) ∧
    (runLCD st (List.replicate n (m, s))).lcdOps = (updateLCD st m s).lcdOps ∧
    updateLCD (updateLCD st m s) m s = updateLCD st m s ∧
    (lcdMessage m s ≠ st.lastLcdMessage →
      (runLCD st (List.replicate n (m, s))).lcdOps = st.lcdOps ++ writeSeq m s) ∧
    (runLCD initState (List.replicate n (m, s))).lcdOps = writeSeq m s := by
  have hidem : ∀ st0 : State, updateLCD (updateLCD st0 m s) m s = updateLCD st0 m s :=
    fun st0 => updateLCD_same _ m s (updateLCD_lastLcdMessage st0 m s).symm
  have hrep : ∀ (k : Nat) (st0 : State),
      runLCD st0 (List.replicate (k + 1) (m, s)) = updateLCD st0 m s := by
    intro k
    induction k with
    | zero => intro st0; rfl
    | succ k ih =>
      intro st0
      rw [List.replicate_succ]
      show runLCD (updateLCD st0 m s) (List.replicate (k + 1) (m, s)) = _
      rw [ih, hidem]
  obtain ⟨k, rfl⟩ : ∃ k, n = k + 1 := ⟨n - 1, by omega⟩
  refine ⟨hrep k st, ?_, ?_, hidem st, ?_, ?_⟩
  · rw [hrep, hidem]
  · rw [hrep]
  · intro hne
    rw [hrep, updateLCD_changed st m s hne]
  · rw [hrep, updateLCD_changed initState m s (lcdMessage_ne_empty m s)]
    rfl

theorem updateLCD_repeat_witness :
    (runLCD initState (List.replicate 3 ("No Motion", "No Sound"))).lcdOps
      = writeSeq "No Motion" "No Sound" :=
  (updateLCD_repeat initState "No Motion" "No Sound" 3 (by decide)).2.2.2.2.2

/-! ## What the display shows -/

theorem Lcd.run_append_writeSeq (ops : List LcdOp) (m s : String) :
    Lcd.run (ops ++ writeSeq m s) = Lcd.run (writeSeq m s) := by
  simp [Lcd.run, writeSeq, List.foldl_append, Lcd.step]

theorem set_after_text (cs L : List Char) (c : Char) (h : cs.length < L.length) :
    (cs ++ L.drop cs.length).set cs.length c = (cs ++ [c]) ++ L.drop (cs.length + 1) := by
  rw [List.set_append, if_neg (lt_irrefl _), Nat.sub_self, List.drop_eq_getElem_cons h,
    List.set_cons_zero, List.append_assoc]
  rfl

/-- Printing a text of fewer than 40 characters from column 0 of row 0. -/
theorem Lcd.print_row0 (d : Lcd) (hrow : d.row = 0) (hcol : d.col = 0)
    (hlen : d.line0.length = lcdLineCells) (cs : List Char) (hcs : cs.length < lcdLineCells) :
    (cs.foldl Lcd.write d).line0 = cs ++ d.line0.drop cs.length ∧
    (cs.foldl Lcd.write d).line1 = d.line1 ∧
    (cs.foldl Lcd.write d).row = 0 ∧
    (cs.foldl Lcd.write d).col = cs.length := by
  induction cs using List.reverseRecOn with
  | nil => simp [hrow, hcol]
  | append_singleton cs c ih =>
    rw [List.length_append, List.length_singleton] at hcs
    obtain ⟨h0, h1, hr, hc⟩ := ih (by omega)
    rw [List.foldl_append, List.foldl_cons, List.foldl_nil]
    have hlt : cs.length < d.line0.length := by omega
    simp only [Lcd.write, hr, hc, if_true, hcs, h0, h1, List.length_append,
      List.length_singleton, set_after_text cs d.line0 c hlt, and_self]

/-- Printing a text of fewer than 40 characters from column 0 of row 1. -/
theorem Lcd.print_row1 (d : Lcd) (hrow : d.row = 1) (hcol : d.col = 0)
    (hlen : d.line1.length = lcdLineCells) (cs : List Char) (hcs : cs.length < lcdLineCells) :
    (cs.foldl Lcd.write d).line0 = d.line0 ∧
    (cs.foldl Lcd.write d).line1 = cs ++ d.line1.drop cs.length ∧
    (cs.foldl Lcd.write d).row = 1 ∧
    (cs.foldl Lcd.write d).col = cs.length := by
  induction cs using List.reverseRecOn with
  | nil => simp [hrow, hcol]
  | append_singleton cs c ih =>
    rw [List.length_append, List.length_singleton] at hcs
    obtain ⟨h0, h1, hr, hc⟩ := ih (by omega)
    rw [List.foldl_append, List.foldl_cons, List.foldl_nil]
    have hlt : cs.length < d.line1.length := by omega
    simp only [Lcd.write, hr, hc, one_ne_zero, if_false, if_true, hcs, h0, h1,
      List.length_append, List.length_singleton, set_after_text cs d.line1 c hlt, and_self]

theorem take_text_blanks (cs : List Char) (h : cs.length ≤ lcdCols) :
    (cs ++ (List.replicate lcdLineCells ' ').drop cs.length).take lcdCols
      = cs ++ List.replicate (lcdCols - cs.length) ' ' := by
  rw [List.take_append_eq_append_take, List.take_of_length_le h, List.drop_replicate,
    List.take_replicate]
  unfold lcdCols lcdLineCells at *
  congr 2
  omega

/-- After the clear-and-write sequence with two texts that fit the rows, each row shows its
text, whatever was sent to the display before. -/
theorem display_after_writeSeq (ops : List LcdOp) (m s : String)
    (hm : m.length ≤ lcdCols) (hs : s.length ≤ lcdCols) :
    (Lcd.run (ops ++ writeSeq m s)).shows 0 m ∧ (Lcd.run (ops ++ writeSeq m s)).shows 1 s := by
  rw [Lcd.run_append_writeSeq]
  have hm2 : m.toList.length ≤ lcdCols := hm
  have hs2 : s.toList.length ≤ lcdCols := hs
  have hm40 : m.toList.length < lcdLineCells := by unfold lcdCols lcdLineCells at *; omega
  have hs40 : s.toList.length < lcdLineCells := by unfold lcdCols lcdLineCells at *; omega
  have hblank : (List.replicate lcdLineCells ' ').length = lcdLineCells := List.length_replicate _ _
  obtain ⟨a0, a1, _, _⟩ := Lcd.print_row0 { Lcd.blank with row := 0, col := 0 } rfl rfl
    hblank m.toList hm40
  obtain ⟨b0, b1, _, _⟩ := Lcd.print_row1
    { (m.toList.foldl Lcd.write { Lcd.blank with row := 0, col := 0 }) with row := 1, col := 0 }
    rfl rfl (by rw [a1]; exact hblank) s.toList hs40
  simp only [Lcd.run, writeSeq, List.foldl_cons, List.foldl_nil, Lcd.step, Lcd.shows,
    Lcd.visibleRow, rowImage, if_true, one_ne_zero, if_false]
  rw [b0, b1, a0, a1]
  exact ⟨take_text_blanks m.toList hm2, take_text_blanks s.toList hs2⟩

/-! ## Coherence of the cache with the display -/

theorem coherent_updateLCD (st : State) (m s : String) (h : Coherent st) :
    Coherent (updateLCD st m s) := by
  by_cases heq : lcdMessage m s = st.lastLcdMessage
  · rw [updateLCD_same st m s heq]; exact h
  · rw [updateLCD_changed st m s heq]
    exact Or.inr ⟨st.lcdOps, m, s, rfl, rfl⟩

theorem coherent_runLCD (calls : List (String × String)) :
    ∀ st : State, Coherent st → Coherent (runLCD st calls) := by
  induction calls with
  | nil => intro st h; exact h
  | cons c rest ih =>
    intro st h
    exact ih _ (coherent_updateLCD st c.1 c.2 h)

theorem newline_split_unique :
    ∀ (m m2 s s2 : List Char), '\n' ∉ m → '\n' ∉ s →
      m ++ '\n' :: s = m2 ++ '\n' :: s2 → m = m2 ∧ s = s2 := by
  intro m
  induction m with
  | nil =>
    intro m2 s s2 _ hs heq
    cases m2 with
    | nil => simpa using heq
    | cons c r =>
      simp only [List.nil_append, List.cons_append, List.cons.injEq] at heq
      exact absurd (heq.2 ▸ (by simp : '\n' ∈ r ++ '\n' :: s2)) hs
  | cons a t ih =>
    intro m2 s s2 hm hs heq
    simp only [List.mem_cons, not_or] at hm
    cases m2 with
    | nil =>
      simp only [List.nil_append, List.cons_append, List.cons.injEq] at heq
      exact absurd heq.1.symm hm.1
    | cons c r =>
      simp only [List.cons_append, List.cons.injEq] at heq
      obtain ⟨h1, h2⟩ := ih r s s2 hm.2 hs heq.2
      exact ⟨by rw [heq.1, h1], h2⟩

theorem lcdMessage_inj (m s m2 s2 : String) (hm : '\n' ∉ m.toList) (hs : '\n' ∉ s.toList)
    (heq : lcdMessage m s = lcdMessage m2 s2) : m = m2 ∧ s = s2 := by
  have hdata := congrArg String.toList heq
  simp only [lcdMessage, String.toList, String.data_append] at hdata
  simp only [List.append_assoc, List.singleton_append] at hdata
  obtain ⟨h1, h2⟩ := newline_split_unique m.data m2.data s.data s2.data hm hs hdata
  exact ⟨String.ext h1, String.ext h2⟩

/-- In a coherent state, a call `updateLCD(m, s)` whose texts contain no newline and fit the
rows leaves row 0 showing `m` and row 1 showing `s`. -/
theorem shows_after_updateLCD (st : State) (m s : String) (h : Coherent st)
    (hm : '\n' ∉ m.toList) (hs : '\n' ∉ s.toList)
    (hmfit : m.length ≤ lcdCols) (hsfit : s.length ≤ lcdCols) :
    (updateLCD st m s).display.shows 0 m ∧ (updateLCD st m s).display.shows 1 s := by
  by_cases heq : lcdMessage m s = st.lastLcdMessage
  · rw [updateLCD_same st m s heq]
    rcases h with h0 | ⟨ops, m2, s2, hops, hcache⟩
    · exact absurd (heq.trans h0) (lcdMessage_ne_empty m s)
    · obtain ⟨h1, h2⟩ := lcdMessage_inj m s m2 s2 hm hs (heq.trans hcache)
      subst h1 h2
      unfold State.display
      rw [hops]
      exact display_after_writeSeq ops m s hmfit hsfit
  · rw [updateLCD_changed st m s heq]
    exact display_after_writeSeq st.lcdOps m s hmfit hsfit

/-- C6, counterexample. After `updateLCD("a\nb", "c")` the call `updateLCD("a", "b\nc")` has
the same combined text, changes nothing, and row 0 does not show `a`; and a text longer than
the row, as in `updateLCD("System Initialized", "No Sound")` from the initial state, is not
what row 0 shows. -/
theorem updateLCD_display_mismatch :
    updateLCD (runLCD initState [("a\nb", "c")]) "a" "b\nc" = runLCD initState [("a\nb", "c")] ∧
    ¬ (updateLCD (runLCD initState [("a\nb", "c")]) "a" "b\nc").display.shows 0 "a" ∧
    ¬ (updateLCD initState "System Initialized" "No Sound").display.shows 0
        "System Initialized" := by
  decide

/-- C6, amended. In every state reached from the initial state by any sequence of `updateLCD`
calls with arbitrary texts, after a call `updateLCD(m, s)` whose two texts contain no newline
and have at most 16 characters each, row 0 shows `m`, row 1 shows `s`, and `lastLcdMessage`
records `m`, newline, `s`. -/
theorem updateLCD_display_matches (pre : List (String × String)) (m s : String)
    (hm : '\n' ∉ m.toList) (hs : '\n' ∉ s.toList)
    (hmfit : m.length ≤ lcdCols) (hsfit : s.length ≤ lcdCols) :
    (updateLCD (runLCD initState pre) m s).display.shows 0 m ∧
    (updateLCD (runLCD initState pre) m s).display.shows 1 s ∧
    (updateLCD (runLCD initState pre) m s).lastLcdMessage = lcdMessage m s :=
  have hcoh : Coherent (runLCD initState pre) := coherent_runLCD pre initState (Or.inl rfl)
  ⟨(shows_after_updateLCD _ m s hcoh hm hs hmfit hsfit).1,
    (shows_after_updateLCD _ m s hcoh hm hs hmfit hsfit).2,
    updateLCD_lastLcdMessage _ m s⟩

theorem updateLCD_display_matches_witness :
    (updateLCD (runLCD initState [("a\nb", "c"), ("System Initialized", "No Sound")])
        "Motion Detected!" "No Sound").display.shows 0 "Motion Detected!" ∧
    (updateLCD (runLCD initState [("a\nb", "c"), ("System Initialized", "No Sound")])
        "Motion Detected!" "No Sound").display.shows 1 "No Sound" ∧
    (updateLCD (runLCD initState [("a\nb", "c"), ("System Initialized", "No Sound")])
        "Motion Detected!" "No Sound").lastLcdMessage
      = lcdMessage "Motion Detected!" "No Sound" :=
  updateLCD_display_matches [("a\nb", "c"), ("System Initialized", "No Sound")]
    "Motion Detected!" "No Sound" (by decide) (by decide) (by decide) (by decide)

/-! ## The poll cycle and the display -/

theorem sensors_frame (st : State) (inp : Inputs) :
    (readMicSensor (readPirSensor st inp.pir).2 inp.mic inp.now).2.lcdOps = st.lcdOps ∧
    (readMicSensor (readPirSensor st inp.pir).2 inp.mic inp.now).2.lastLcdMessage
      = st.lastLcdMessage := by
  unfold readMicSensor readPirSensor
  constructor <;> (dsimp only; split_ifs <;> rfl)

theorem loop_eq (st : State) (inp : Inputs) :
    loop st inp
      = updateLCD
          { (readMicSensor (readPirSensor st inp.pir).2 inp.mic inp.now).2 with
            ledLevel := if pollMotion st inp = true then HIGH else LOW }
          (motionText (pollMotion st inp)) (soundText (pollSound st inp)) := rfl

theorem coherent_loop (st : State) (inp : Inputs) (h : Coherent st) :
    Coherent (loop st inp) := by
  rw [loop_eq]
  apply coherent_updateLCD
  obtain ⟨hops, hcache⟩ := sensors_frame st inp
  unfold Coherent at *
  simp only [hops, hcache]
  exact h

theorem coherent_runLoop (inps : List Inputs) :
    ∀ st : State, Coherent st → Coherent (runLoop st inps) := by
  induction inps with
  | nil => intro st h; exact h
  | cons inp rest ih =>
    intro st h
    exact ih _ (coherent_loop st inp h)

theorem coherent_setup : Coherent (setup initState) :=
  Or.inr ⟨[.begin 16 2, .setBacklight true, .clear], "System Initialized", "No Sound",
    by decide, by decide⟩

theorem loop_shows (st : State) (inp : Inputs) (h : Coherent st) :
    (loop st inp).display.shows 0 (motionText (pollMotion st inp)) ∧
    (loop st inp).display.shows 1 (soundText (pollSound st inp)) := by
  rw [loop_eq]
  have hcoh : Coherent { (readMicSensor (readPirSensor st inp.pir).2 inp.mic inp.now).2 with
      ledLevel := if pollMotion st inp = true then HIGH else LOW } := by
    obtain ⟨hops, hcache⟩ := sensors_frame st inp
    unfold Coherent at *
    simp only [hops, hcache]
    exact h
  apply shows_after_updateLCD _ _ _ hcoh
  · cases pollMotion st inp <;> decide
  · cases pollSound st inp <;> decide
  · cases pollMotion st inp <;> decide
  · cases pollSound st inp <;> decide

/-- C8. In every state reached by `setup` followed by any number of poll cycles, after one
more poll cycle row 0 shows "Motion Detected!" if `readPirSensor` returned true in that cycle
and "No Motion" otherwise, and row 1 shows "Sound Detected!" if `readMicSensor` returned true
and "No Sound" otherwise; with the sound state false, motion low gives "No Motion" and
"No Sound" with the LED low, and motion high gives "Motion Detected!" and "No Sound" with the
LED high. -/
theorem loop_display_texts (inps : List Inputs) (inp : Inputs) :
    (loop (runLoop (setup initState) inps) inp).display.shows 0
      (if pollMotion (runLoop (setup initState) inps) inp = true
        then "Motion Detected!" else "No Motion") ∧
    (loop (runLoop (setup initState) inps) inp).display.shows 1
      (if pollSound (runLoop (setup initState) inps) inp = true
        then "Sound Detected!" else "No Sound") ∧
    (inp.pir = LOW → pollSound (runLoop (setup initState) inps) inp = false →
      (loop (runLoop (setup initState) inps) inp).display.shows 0 "No Motion" ∧
      (loop (runLoop (setup initState) inps) inp).display.shows 1 "No Sound" ∧
      (loop (runLoop (setup initState) inps) inp).ledLevel = LOW) ∧
    (inp.pir = HIGH → pollSound (runLoop (setup initState) inps) inp = false →
      (loop (runLoop (setup initState) inps) inp).display.shows 0 "Motion Detected!" ∧
      (loop (runLoop (setup initState) inps) inp).display.shows 1 "No Sound" ∧
      (loop (runLoop (setup initState) inps) inp).ledLevel = HIGH) := by
  have hcoh : Coherent (runLoop (setup initState) inps) :=
    coherent_runLoop inps _ coherent_setup
  obtain ⟨h0, h1⟩ := loop_shows _ inp hcoh
  unfold motionText at h0
  unfold soundText at h1
  refine ⟨h0, h1, ?_, ?_⟩
  · intro hpir hsound
    have hmotion : pollMotion (runLoop (setup initState) inps) inp = false := by
      unfold pollMotion
      rw [readPirSensor_binary _ _ (Or.inr hpir), hpir]
      simp [HIGH, LOW]
    rw [hmotion] at h0
    rw [hsound] at h1
    refine ⟨h0, h1, ?_⟩
    rw [loop_ledLevel]
    simp [show (readPirSensor (runLoop (setup initState) inps) inp.pir).1 = false from hmotion]
  · intro hpir hsound
    have hmotion : pollMotion (runLoop (setup initState) inps) inp = true := by
      unfold pollMotion
      rw [readPirSensor_binary _ _ (Or.inl hpir), hpir]
      simp
    rw [hmotion] at h0
    rw [hsound] at h1
    refine ⟨h0, h1, ?_⟩
    rw [loop_ledLevel]
    simp [show (readPirSensor (runLoop (setup initState) inps) inp.pir).1 = true from hmotion]

theorem loop_display_texts_witness :
    (loop (runLoop (setup initState) [{ pir := LOW, mic := HIGH, now := 2000 }])
        { pir := HIGH, mic := LOW, now := 7001 }).display.shows 0 "Motion Detected!" ∧
    (loop (runLoop (setup initState) [{ pir := LOW, mic := HIGH, now := 2000 }])
        { pir := HIGH, mic := LOW, now := 7001 }).display.shows 1 "No Sound" ∧
    (loop (runLoop (setup initState) [{ pir := LOW, mic := HIGH, now := 2000 }])
        { pir := HIGH, mic := LOW, now := 7001 }).ledLevel = HIGH :=
  (loop_display_texts [{ pir := LOW, mic := HIGH, now := 2000 }]
    { pir := HIGH, mic := LOW, now := 7001 }).2.2.2 (by decide) (by decide)

/-! ## Start-up -/

theorem first_cycle_text_new (a b : Bool) :
    lcdMessage (motionText a) (soundText b) ≠ lcdMessage "System Initialized" "No Sound" := by
  cases a <;> cases b <;> decide

/-- C10. After `setup` from the initial program state the display has been sent
"System Initialized" for row 0 and "No Sound" for row 1 and `lastLcdMessage` records that
pair, both latched sensor states are false, and the first poll cycle issues the
clear-and-write sequence whatever the inputs are; row 1 shows "No Sound", but the 16 visible
cells of row 0 hold "System Initializ": the 18-character text does not fit the row, so the
row does not show "System Initialized". -/
theorem setup_display (inp : Inputs) :
    (setup initState).lcdOps
      = [.begin 16 2, .setBacklight true, .clear] ++ writeSeq "System Initialized" "No Sound" ∧
    (setup initState).display.visibleRow 0 = "System Initializ".toList ∧
    ¬ (setup initState).display.shows 0 "System Initialized" ∧
    (setup initState).display.shows 1 "No Sound" ∧
    (setup initState).lastLcdMessage = lcdMessage "System Initialized" "No Sound" ∧
    (setup initState).soundDetected = false ∧
    (setup initState).movementDetected = false ∧
    (loop (setup initState) inp).lcdOps
      = (setup initState).lcdOps
          ++ writeSeq (motionText (pollMotion (setup initState) inp))
              (soundText (pollSound (setup initState) inp)) := by
  refine ⟨by decide, by decide, by decide, by decide, by decide, by decide, by decide, ?_⟩
  obtain ⟨hops, hcache⟩ := sensors_frame (setup initState) inp
  have hsetup : (setup initState).lastLcdMessage
      = lcdMessage "System Initialized" "No Sound" := by decide
  rw [loop_eq, updateLCD_changed]
  · show (readMicSensor (readPirSensor (setup initState) inp.pir).2 inp.mic inp.now).2.lcdOps
        ++ _ = _
    rw [hops]
  · show _ ≠ (readMicSensor (readPirSensor (setup initState) inp.pir).2 inp.mic
        inp.now).2.lastLcdMessage
    rw [hcache, hsetup]
    exact first_cycle_text_new _ _

/-! ## Independence of the two readers -/

/-- C11. `readPirSensor` leaves `soundDetected`, `soundDetectedTime` and `lastLcdMessage`
unchanged and, for a binary pin reading, returns the same value from any two states (it reads
no clock); `readMicSensor` leaves `movementDetected` and `lastLcdMessage` unchanged and returns
the same value from any two states that agree on `soundDetected` and `soundDetectedTime`, for
the same sound pin reading and clock, so in a poll cycle its value is the same whatever the
motion pin reads. -/
theorem sensor_readers_independent (st st2 : State) (pir pir2 mic : Int) (now : Nat) :
    ((readPirSensor st pir).2.soundDetected = st.soundDetected ∧
      (readPirSensor st pir).2.soundDetectedTime = st.soundDetectedTime ∧
      (readPirSensor st pir).2.lastLcdMessage = st.lastLcdMessage) ∧
    (pir = HIGH ∨ pir = LOW → (readPirSensor st2 pir).1 = (readPirSensor st pir).1) ∧
    ((readMicSensor st mic now).2.movementDetected = st.movementDetected ∧
      (readMicSensor st mic now).2.lastLcdMessage = st.lastLcdMessage) ∧
    (st2.soundDetected = st.soundDetected → st2.soundDetectedTime = st.soundDetectedTime →
      (readMicSensor st2 mic now).1 = (readMicSensor st mic now).1) ∧
    (readMicSensor (readPirSensor st pir).2 mic now).1
      = (readMicSensor (readPirSensor st pir2).2 mic now).1 := by
  have hpir : ∀ (s0 : State) (l : Int),
      (readPirSensor s0 l).2.soundDetected = s0.soundDetected ∧
      (readPirSensor s0 l).2.soundDetectedTime = s0.soundDetectedTime ∧
      (readPirSensor s0 l).2.lastLcdMessage = s0.lastLcdMessage := by
    intro s0 l
    unfold readPirSensor
    refine ⟨?_, ?_, ?_⟩ <;> (dsimp only; split_ifs <;> rfl)
  have hmic : ∀ a b : State, a.soundDetected = b.soundDetected →
      a.soundDetectedTime = b.soundDetectedTime →
      (readMicSensor a mic now).1 = (readMicSensor b mic now).1 := by
    intro a b h1 h2
    unfold readMicSensor
    dsimp only
    rw [h1, h2]
    split_ifs <;> first | rfl | exact h1
  refine ⟨hpir st pir, ?_, ?_, ?_, ?_⟩
  · intro hbin
    rw [readPirSensor_binary st2 pir hbin, readPirSensor_binary st pir hbin]
  · unfold readMicSensor
    constructor <;> (dsimp only; split_ifs <;> rfl)
  · intro h1 h2
    exact hmic st2 st h1 h2
  · exact hmic _ _ ((hpir st pir).1.trans (hpir st pir2).1.symm)
      ((hpir st pir).2.1.trans (hpir st pir2).2.1.symm)

theorem sensor_readers_independent_witness :
    (readPirSensor { initState with movementDetected := true } LOW).1
        = (readPirSensor initState LOW).1 ∧
    (readMicSensor { initState with movementDetected := true, ledLevel := HIGH } LOW 9).1
        = (readMicSensor initState LOW 9).1 :=
  ⟨(sensor_readers_independent initState { initState with movementDetected := true }
      LOW HIGH LOW 9).2.1 (Or.inr rfl),
    (sensor_readers_independent initState
      { initState with movementDetected := true, ledLevel := HIGH } HIGH LOW LOW 9).2.2.2.1
      rfl rfl⟩

/-! ## Width of the texts -/

/-- C12. The texts `loop` passes to `updateLCD` fit the 16-column row: the motion texts and
the sound texts have at most 16 characters.  The texts `setup` prints are
"System Initialized" and "No Sound"; the second fits, the first has 18 characters and does
not fit the row. -/
theorem display_texts_width :
    (∀ b : Bool, (motionText b).length ≤ lcdCols) ∧
    (∀ b : Bool, (soundText b).length ≤ lcdCols) ∧
    (∀ (st : State) (inp : Inputs),
      loop st inp = updateLCD
        { (readMicSensor (readPirSensor st inp.pir).2 inp.mic inp.now).2 with
          ledLevel := if pollMotion st inp = true then HIGH else LOW }
        (motionText (pollMotion st inp)) (soundText (pollSound st inp))) ∧
    printedTexts (setup initState).lcdOps = ["System Initialized", "No Sound"] ∧
    ("No Sound" : String).length ≤ lcdCols ∧
    ("System Initialized" : String).length = 18 ∧
    ¬ ("System Initialized" : String).length ≤ lcdCols := by
  refine ⟨?_, ?_, fun st inp => loop_eq st inp, by decide, by decide, by decide, by decide⟩
  · intro b; cases b <;> decide
  · intro b; cases b <;> decide

/-! ## Clock wrap-around -/

theorem ulongSub_wrap (t d : Nat) (hd : d < ULONG_RANGE) :
    ulongSub ((t + d) % ULONG_RANGE) t = d := by
  unfold ulongSub ULONG_RANGE at *
  norm_num at *
  omega

/-- C14. For every detection timestamp `t` and true elapsed time `d` below `2^32`, when
the clock reads `(t + d) mod 2^32` the unsigned difference `millis() - soundDetectedTime` is
exactly `d`, also when the clock has wrapped past zero; so with the input low, a set latch
with timestamp `t` is cleared if and only if `d > 5000`. -/
theorem decay_test_across_wrap (st : State) (lvl : Int) (t d : Nat)
    (hd : d < ULONG_RANGE)
    (hset : st.soundDetected = true) (htime : st.soundDetectedTime = t)
    (hlow : lvl ≠ HIGH) :
    ulongSub ((t + d) % ULONG_RANGE) st.soundDetectedTime = d ∧
    ((readMicSensor st lvl ((t + d) % ULONG_RANGE)).2.soundDetected = false ↔ d > 5000) ∧
    ((readMicSensor st lvl ((t + d) % ULONG_RANGE)).1 = false ↔ d > 5000) := by
  have hsub : ulongSub ((t + d) % ULONG_RANGE) st.soundDetectedTime = d := by
    rw [htime]; exact ulongSub_wrap t d hd
  rw [readMicSensor_low st lvl _ hlow, hsub, hset]
  refine ⟨rfl, ?_, ?_⟩ <;>
  · by_cases h : d > 5000
    · simp [h]
    · simp [h, hset]

theorem decay_test_across_wrap_witness :
    ulongSub ((4294967000 + 5297) % ULONG_RANGE) 4294967000 = 5297 ∧
    ((readMicSensor { initState with soundDetected := true, soundDetectedTime := 4294967000 }
        LOW ((4294967000 + 5297) % ULONG_RANGE)).1 = false ↔ 5297 > 5000) :=
  ⟨(decay_test_across_wrap
      { initState with soundDetected := true, soundDetectedTime := 4294967000 } LOW
      4294967000 5297 (by decide) rfl rfl (by decide)).1,
    (decay_test_across_wrap
      { initState with soundDetected := true, soundDetectedTime := 4294967000 } LOW
      4294967000 5297 (by decide) rfl rfl (by decide)).2.2⟩

/-! ## Closed form of the sound latch -/

theorem runMic_append_state (st : State) (a b : List (Int × Nat)) :
    (runMic st (a ++ b)).2 = (runMic (runMic st a).2 b).2 := by
  induction a generalizing st with
  | nil => rfl
  | cons p rest ih =>
    obtain ⟨lvl, now⟩ := p
    show (runMic st ((lvl, now) :: (rest ++ b))).2 = _
    simp only [runMic, ih]

theorem readMicSensor_result (st : State) (lvl : Int) (now : Nat) :
    (readMicSensor st lvl now).1 = (readMicSensor st lvl now).2.soundDetected := rfl

theorem lastHighTime_concat (pre : List (Int × Nat)) (lvl : Int) (now : Nat) :
    lastHighTime (pre ++ [(lvl, now)])
      = if lvl = HIGH then some now else lastHighTime pre := by
  unfold lastHighTime
  by_cases h : lvl = HIGH
  · simp [List.filter_append, List.filter_cons, h]
  · simp [List.filter_append, List.filter_cons, h]

theorem lastHighTime_mem (polls : List (Int × Nat)) (t : Nat)
    (h : lastHighTime polls = some t) : t ∈ polls.map Prod.snd := by
  unfold lastHighTime at h
  rw [Option.map_eq_some'] at h
  obtain ⟨p, hp, hpt⟩ := h
  have hmem : p ∈ polls := List.mem_of_mem_filter (List.mem_of_getLast?_eq_some hp)
  exact hpt ▸ List.mem_map_of_mem _ hmem

theorem latchInv_of_none (st : State) (polls : List (Int × Nat))
    (h : lastHighTime polls = none) : LatchInv st polls ↔ st.soundDetected = false := by
  unfold LatchInv; rw [h]

theorem latchInv_of_some (st : State) (polls : List (Int × Nat)) (t : Nat)
    (h : lastHighTime polls = some t) :
    LatchInv st polls ↔
      ((st.soundDetected = true ∧ st.soundDetectedTime = t ∧
          ∀ u ∈ polls.map Prod.snd, u ≤ t + 5000) ∨
        (st.soundDetected = false ∧ ∃ u ∈ polls.map Prod.snd, t + 5000 < u)) := by
  unfold LatchInv; rw [h]

/-- From the initial state, with non-decreasing clock readings that do not wrap, the latch
state after any sequence of polls is the one `LatchInv` describes. -/
theorem latchInv_runMic (polls : List (Int × Nat)) :
    List.Pairwise (fun a b => a ≤ b) (polls.map Prod.snd) →
    (∀ t ∈ polls.map Prod.snd, t < ULONG_RANGE) →
    LatchInv (runMic initState polls).2 polls := by
  induction polls using List.reverseRecOn with
  | nil =>
    intro _ _
    have hnone : lastHighTime ([] : List (Int × Nat)) = none := rfl
    exact (latchInv_of_none (runMic initState []).2 [] hnone).mpr rfl
  | append_singleton pre p ih =>
    intro hmono hrange
    obtain ⟨lvl, now⟩ := p
    rw [List.map_append, List.pairwise_append] at hmono
    obtain ⟨hpre, _, hcross⟩ := hmono
    have hle : ∀ u ∈ pre.map Prod.snd, u ≤ now := fun u hu =>
      hcross u hu now (List.mem_singleton_self _)
    have hnow : now < ULONG_RANGE :=
      hrange now (by rw [List.map_append]; exact List.mem_append_right _ (List.mem_singleton_self _))
    have hinv := ih hpre (fun t ht =>
      hrange t (by rw [List.map_append]; exact List.mem_append_left _ ht))
    have hmem : ∀ u, u ∈ (pre ++ [(lvl, now)]).map Prod.snd ↔ u ∈ pre.map Prod.snd ∨ u = now := by
      intro u
      rw [List.map_append, List.mem_append]
      simp
    rw [runMic_append_state]
    show LatchInv (readMicSensor (runMic initState pre).2 lvl now).2 (pre ++ [(lvl, now)])
    by_cases hl : lvl = HIGH
    · have hlast : lastHighTime (pre ++ [(lvl, now)]) = some now := by
        rw [lastHighTime_concat, if_pos hl]
      rw [latchInv_of_some _ _ now hlast, hl, readMicSensor_high]
      refine Or.inl ⟨rfl, rfl, ?_⟩
      intro u hu
      rcases (hmem u).mp (hl ▸ hu) with h1 | h1
      · have := hle u h1; omega
      · omega
    · have hsame : lastHighTime (pre ++ [(lvl, now)]) = lastHighTime pre := by
        rw [lastHighTime_concat, if_neg hl]
      rw [readMicSensor_low _ lvl now hl]
      cases hlast : lastHighTime pre with
      | none =>
        rw [latchInv_of_none _ _ (hsame.trans hlast)]
        have hd := (latchInv_of_none _ _ hlast).mp hinv
        simp [hd]
      | some t =>
        rw [latchInv_of_some _ _ t (hsame.trans hlast)]
        have ht : t ≤ now := hle t (lastHighTime_mem pre t hlast)
        rcases (latchInv_of_some _ _ t hlast).mp hinv with ⟨hd, hts, hall⟩ | ⟨hd, u, hu, hlate⟩
        · rw [hd, hts, ulongSub_of_le ht hnow]
          by_cases hwin : now - t > 5000
          · rw [if_pos ⟨rfl, hwin⟩]
            exact Or.inr ⟨rfl, now, (hmem now).mpr (Or.inr rfl), by omega⟩
          · rw [if_neg (fun hc => hwin hc.2)]
            refine Or.inl ⟨hd, hts, ?_⟩
            intro u hu
            rcases (hmem u).mp hu with h1 | h1
            · exact hall u h1
            · omega
        · have hnot : ¬ ((runMic initState pre).2.soundDetected = true ∧
              ulongSub now (runMic initState pre).2.soundDetectedTime > 5000) := by
            simp [hd]
          rw [if_neg hnot]
          exact Or.inr ⟨hd, u, (hmem u).mpr (Or.inl hu), hlate⟩

/-- C13. For every sequence of `readMicSensor` calls from the initial state with
non-decreasing clock readings that do not wrap, the value returned by the last call (and so
by each call, the sequence being arbitrary) is true if and only if the sound input read high
at this or some earlier call and the current reading is at most 5000 after the reading of the
most recent high; and after a call that returned false, a call that does not read high
returns false again. -/
theorem latch_closed_form (pre : List (Int × Nat)) (lvl : Int) (now : Nat)
    (hmono : List.Pairwise (fun a b => a ≤ b) ((pre ++ [(lvl, now)]).map Prod.snd))
    (hrange : ∀ t ∈ (pre ++ [(lvl, now)]).map Prod.snd, t < ULONG_RANGE) :
    (runMic initState (pre ++ [(lvl, now)])).1
      = (runMic initState pre).1 ++ [latchClosedForm (pre ++ [(lvl, now)]) now] ∧
    ((readMicSensor (runMic initState pre).2 lvl now).1 = true ↔
      ∃ t, lastHighTime (pre ++ [(lvl, now)]) = some t ∧ now ≤ t + 5000) ∧
    (∀ (lvl2 : Int) (now2 : Nat),
      (readMicSensor (runMic initState pre).2 lvl now).1 = false → lvl2 ≠ HIGH →
      (readMicSensor (readMicSensor (runMic initState pre).2 lvl now).2 lvl2 now2).1
        = false) := by
  have hinv := latchInv_runMic (pre ++ [(lvl, now)]) hmono hrange
  rw [runMic_append_state] at hinv
  change LatchInv (readMicSensor (runMic initState pre).2 lvl now).2 _ at hinv
  have hlastle : ∀ u ∈ (pre ++ [(lvl, now)]).map Prod.snd, u ≤ now := by
    intro u hu
    rw [List.map_append, List.pairwise_append] at hmono
    rw [List.map_append, List.mem_append] at hu
    rcases hu with h1 | h1
    · exact hmono.2.2 u h1 now (List.mem_singleton_self _)
    · simp at h1; omega
  have hnowmem : now ∈ (pre ++ [(lvl, now)]).map Prod.snd := by
    rw [List.map_append]; exact List.mem_append_right _ (List.mem_singleton_self _)
  have hval : (readMicSensor (runMic initState pre).2 lvl now).1
      = latchClosedForm (pre ++ [(lvl, now)]) now := by
    rw [readMicSensor_result]
    unfold latchClosedForm
    cases hlast : lastHighTime (pre ++ [(lvl, now)]) with
    | none => exact (latchInv_of_none _ _ hlast).mp hinv
    | some t =>
      rcases (latchInv_of_some _ _ t hlast).mp hinv with ⟨hd, _, hall⟩ | ⟨hd, u, hu, hlate⟩
      · rw [hd]
        exact (decide_eq_true (hall now hnowmem)).symm
      · rw [hd]
        have : ¬ now ≤ t + 5000 := by have := hlastle u hu; omega
        exact (decide_eq_false this).symm
  refine ⟨?_, ?_, ?_⟩
  · rw [runMic_append, ← hval]
    rfl
  · rw [hval]
    unfold latchClosedForm
    cases hlast : lastHighTime (pre ++ [(lvl, now)]) with
    | none => simp
    | some t => simp
  · intro lvl2 now2 hfalse hl2
    rw [readMicSensor_result] at hfalse
    rw [readMicSensor_low _ lvl2 now2 hl2, if_neg (by simp [hfalse])]
    exact hfalse

theorem latch_closed_form_witness :
    (runMic initState ([(LOW, 10), (HIGH, 2000), (LOW, 7000)] ++ [(LOW, 7001)])).1
      = (runMic initState [(LOW, 10), (HIGH, 2000), (LOW, 7000)]).1
          ++ [latchClosedForm ([(LOW, 10), (HIGH, 2000), (LOW, 7000)] ++ [(LOW, 7001)]) 7001] :=
  (latch_closed_form [(LOW, 10), (HIGH, 2000), (LOW, 7000)] LOW 7001 (by decide)
    (by decide)).1

end Sketch
